import Mathlib

/-!
Verification of the upload validation and relay pipeline of the
next-page-builder repository.

The backend (src/be/src/index.ts) is an express server: multer admits up
to 10 files of mimetype image/* (at most 5 MiB each), the upload route
reads each temp file, checks the 8-byte PNG magic for files declared
image/png, partitions files into validFiles / invalidFiles, and builds the
JSON response.  The edge (src/fe/src/lib/api-middleware/withMultiplePathForm.ts
and the unnamed Next.js API routes) parses the browser's multipart body with
formidable, rebuilds a FormData payload and relays it to the backend.

Effectful calls are embedded explicitly: a file record carries the outcome
of fs.readFileSync on its temp path (`readResult`, none = the read threw)
and the outcome an fs.unlinkSync on that path would have (`unlinkOk`);
the loop threads an explicit state recording the two verdict lists, every
unlink attempted and every unlink that succeeded.
-/

namespace NextPageBuilder

/-- `PNG_SIGNATURE` from src/be/src/index.ts line 46:
the 8-byte PNG magic `89 50 4E 47 0D 0A 1A 0A`. -/
def PNG_SIGNATURE : List Nat := [0x89, 0x50, 0x4E, 0x47, 0x0D, 0x0A, 0x1A, 0x0A]

/-- `isPngByBytes` from src/be/src/index.ts lines 47-52: false when the
buffer is shorter than the signature, else compare the leading bytes. -/
def isPngByBytes (buffer : List Nat) : Bool :=
  if buffer.length < PNG_SIGNATURE.length then false
  else buffer.take PNG_SIGNATURE.length == PNG_SIGNATURE

/-- A file as received by the upload route (Express.Multer.File) together
with the outcome of the filesystem operations the validation loop performs
on its temp path: `readResult` is what `fs.readFileSync file.path` yields
(`none` = the read throws), `unlinkOk` is whether `fs.unlinkSync file.path`
succeeds. -/
structure MFile where
  originalname : String
  mimetype : String
  filename : String
  path : String
  size : Nat
  readResult : Option (List Nat)
  unlinkOk : Bool
deriving DecidableEq

/-- State threaded through the validation loop of src/be/src/index.ts
lines 96-132: the two partitions plus a log of the unlink calls made
(`unlinkAttempts`) and of those that succeeded (`removed`). -/
structure LoopState where
  validFiles : List MFile
  invalidFiles : List String
  unlinkAttempts : List String
  removed : List String
deriving DecidableEq

def emptyState : LoopState := ⟨[], [], [], []⟩

/-- The catch block of src/be/src/index.ts lines 122-131: push
`originalname - Validation error`, then try to unlink the temp file,
swallowing an unlink failure. -/
def catchBranch (st : LoopState) (f : MFile) : LoopState :=
  { st with
    invalidFiles := st.invalidFiles ++ [f.originalname ++ " - Validation error"],
    unlinkAttempts := st.unlinkAttempts ++ [f.path],
    removed := if f.unlinkOk then st.removed ++ [f.path] else st.removed }

/-- One iteration of the validation loop (src/be/src/index.ts lines
100-132).  `readFileSync` throwing goes to the catch block.  For a file
declared image/png with a bad signature, the source pushes the rejection
reason and then calls an unguarded `fs.unlinkSync` still inside the try:
if that unlink throws, control falls into the catch block as well. -/
def validateStep (st : LoopState) (f : MFile) : LoopState :=
  match f.readResult with
  | none => catchBranch st f
  | some buffer =>
    if f.mimetype == "image/png" then
      if isPngByBytes buffer then
        { st with validFiles := st.validFiles ++ [f] }
      else
        let st1 := { st with
          invalidFiles := st.invalidFiles ++ [f.originalname ++ " - Invalid PNG signature"],
          unlinkAttempts := st.unlinkAttempts ++ [f.path] }
        if f.unlinkOk then { st1 with removed := st1.removed ++ [f.path] }
        else catchBranch st1 f
    else
      { st with validFiles := st.validFiles ++ [f] }

/-- The `for (const file of files)` loop of src/be/src/index.ts. -/
def validateFiles (st : LoopState) : List MFile → LoopState
  | [] => st
  | f :: rest => validateFiles (validateStep st f) rest

/-- A file is accepted by the loop exactly when its content is readable and
it is either not declared image/png or carries the PNG magic. -/
def isAccepted (f : MFile) : Bool :=
  match f.readResult with
  | none => false
  | some buffer => !(f.mimetype == "image/png") || isPngByBytes buffer

/-- How many verdict entries one file contributes: 1, except for a file
declared image/png with readable non-matching content whose unlink fails,
which is pushed onto invalidFiles twice (once per catch path). -/
def verdictCount (f : MFile) : Nat :=
  match f.readResult with
  | none => 1
  | some buffer =>
    if f.mimetype == "image/png" then
      if isPngByBytes buffer then 1
      else if f.unlinkOk then 1 else 2
    else 1

/-- The one configuration in which the loop pushes two verdicts for a
single file: declared image/png, readable content without the PNG magic,
and the unguarded `fs.unlinkSync` of line 114 throwing, which drops the
already-recorded rejection into the catch block for a second push. -/
def doubleVerdict (f : MFile) : Bool :=
  match f.readResult with
  | none => false
  | some buffer =>
    f.mimetype == "image/png" && !isPngByBytes buffer && !f.unlinkOk

/-- The per-file descriptor of src/be/src/index.ts lines 143-151;
`idOf i` stands for the i-th call of uuidv4 while mapping. -/
structure FileData where
  id : String
  originalName : String
  filename : String
  path : String
  size : Nat
  mimetype : String
  url : String
deriving DecidableEq

def toFileData (proto host : String) (idOf : Nat → String) (i : Nat) (f : MFile) : FileData :=
  { id := idOf i
    originalName := f.originalname
    filename := f.filename
    path := f.path
    size := f.size
    mimetype := f.mimetype
    url := proto ++ "://" ++ host ++ "/uploads/" ++ f.filename }

/-- The JSON body plus HTTP status produced by the upload route. -/
structure UploadResponse where
  status : Nat
  success : Bool
  message : String
  files : Option (List FileData)
  error : Option String
deriving DecidableEq

/-- The upload route handler of src/be/src/index.ts lines 84-159 (the
happy path inside the outer try): empty file list, all-invalid, and
at-least-one-valid cases. -/
def handleUpload (proto host : String) (idOf : Nat → String) (files : List MFile) : UploadResponse :=
  if files.length == 0 then
    { status := 400, success := false, message := "No files uploaded"
      files := none, error := none }
  else
    let st := validateFiles emptyState files
    if st.validFiles.length == 0 then
      { status := 400, success := false
        message := "No valid files uploaded. All files failed validation."
        files := none
        error := some (String.intercalate ", " st.invalidFiles) }
    else
      { status := 200, success := true
        message := "Successfully uploaded " ++ toString st.validFiles.length ++ " valid file(s)" ++
          (if st.invalidFiles.length > 0 then
            ". " ++ toString st.invalidFiles.length ++ " file(s) were rejected: " ++
              String.intercalate ", " st.invalidFiles
          else "")
        files := some ((st.validFiles.enum).map (fun p => toFileData proto host idOf p.1 p.2))
        error := none }

/-- A JavaScript error as seen by the express error-handling middleware:
whether it is a multer.MulterError, its code, and its message. -/
structure JsError where
  isMulterError : Bool
  code : String
  message : String
deriving DecidableEq

/-- The response of the error-handling middleware. -/
structure ErrResponse where
  status : Nat
  success : Bool
  message : String
deriving DecidableEq

/-- The error-handling middleware of src/be/src/index.ts lines 234-249:
only a MulterError with code LIMIT_FILE_SIZE gets a 400; every other
error falls through to a 500 carrying the error's message (or a generic
one when the message is empty, JavaScript `error.message || ...`). -/
def errorHandler (e : JsError) : ErrResponse :=
  if e.isMulterError && e.code == "LIMIT_FILE_SIZE" then
    { status := 400, success := false, message := "File too large. Maximum size is 5MB." }
  else
    { status := 500, success := false
      message := if e.message == "" then "Internal server error" else e.message }

/-- The error the `fileFilter` of src/be/src/index.ts lines 37-44 passes to
its callback for a non-image declared type: a plain Error, not a
MulterError. -/
def fileFilterError : JsError :=
  { isMulterError := false, code := "", message := "Only image files are allowed!" }

/-- JavaScript `s.startsWith(p)`, embedded on the character lists. -/
def jsStartsWith (s p : String) : Bool := p.data.isPrefixOf s.data

/-- `fileFilter` from src/be/src/index.ts lines 37-44, with `none` for the
accepting callback `cb(null, true)` and `some e` for `cb(e, false)`. -/
def fileFilter (mimetype : String) : Option JsError :=
  if jsStartsWith mimetype "image/" then none else some fileFilterError

/-- The MulterError that multer raises when `upload.array('images', 10)`
receives more than 10 parts for the field (multer library semantics:
code LIMIT_UNEXPECTED_FILE). -/
def limitFileCountError : JsError :=
  { isMulterError := true, code := "LIMIT_UNEXPECTED_FILE", message := "Unexpected field" }

/-- The MulterError that multer raises when a file exceeds the configured
`fileSize` limit of 5 * 1024 * 1024 bytes (code LIMIT_FILE_SIZE). -/
def limitFileSizeError : JsError :=
  { isMulterError := true, code := "LIMIT_FILE_SIZE", message := "File too large" }

/-- `path.extname`: suffix of the name from its last dot, empty when there
is no dot past the first character (a leading dot alone starts no
extension, as in node's path.extname). -/
def extFrom : List Char → Option (List Char)
  | [] => none
  | c :: cs =>
    match extFrom cs with
    | some e => some e
    | none => if c == '.' then some (c :: cs) else none

def extname (s : String) : String :=
  match s.data with
  | [] => ""
  | _ :: rest =>
    match extFrom rest with
    | some e => String.mk e
    | none => ""

/-- The stored name generated by the multer diskStorage `filename` callback
(src/be/src/index.ts line 32): uuidv4() ++ "-" ++ Date.now() ++
path.extname(originalname). -/
def generatedFilename (uuid timestamp originalname : String) : String :=
  uuid ++ "-" ++ timestamp ++ extname originalname

/-! Edge (Next.js) side: the relay route handlers and the FormData
middleware. -/

/-- What the backend's fetch response looks like to the edge. -/
structure BackendResponse where
  status : Nat
  body : String
deriving DecidableEq

/-- Outcome of the outbound `fetch` call: a response, or the call itself
throwing (network failure). -/
inductive FetchOutcome where
  | respond (r : BackendResponse)
  | networkFailure (msg : String)
deriving DecidableEq

/-- The body the edge route sends back: either the backend's JSON body
passed through, or a failure body with message and error detail. -/
inductive EdgeBody where
  | relayed (body : String)
  | failure (message error : String)
deriving DecidableEq

/-- The Next.js API route handler (src/unnamed/part_000 and
src/unnamed/part_001, both observably identical here): non-POST gets 405;
a backend response with `response.ok` (status 200-299) is parsed and
re-sent with status 200; a non-ok status throws
`Backend responded with status: N`, and any throw (that, or a network
failure) is answered with 500 and a generic failure body. -/
def relayHandler (method : String) (outcome : FetchOutcome) : Nat × EdgeBody :=
  if method == "POST" then
    match outcome with
    | FetchOutcome.respond r =>
      if 200 ≤ r.status ∧ r.status < 300 then (200, EdgeBody.relayed r.body)
      else (500, EdgeBody.failure "Internal server error"
        ("Backend responded with status: " ++ toString r.status))
    | FetchOutcome.networkFailure msg =>
      (500, EdgeBody.failure "Internal server error" msg)
  else (405, EdgeBody.failure "Method not allowed" "")

/-- A formidable.File as the middleware sees it; each field is optional
because the JavaScript property may be null or undefined. -/
structure FPart where
  originalFilename : Option String
  mimetype : Option String
  filepath : Option String
deriving DecidableEq

/-- A parsed form field value: an array of strings, a single string, or
undefined. -/
inductive FieldVal where
  | arr (vs : List String)
  | single (v : String)
  | undef
deriving DecidableEq

/-- A parsed files entry: an array of file parts or a single one (the
source wraps a non-array with `[fileArray]`); parts may be null. -/
inductive FilesVal where
  | arr (l : List (Option FPart))
  | single (f : Option FPart)
deriving DecidableEq

/-- JavaScript `x || d` on an optional string: null, undefined and the
empty string are falsy. -/
def orDefault (s : Option String) (d : String) : String :=
  match s with
  | some v => if v == "" then d else v
  | none => d

/-- An entry appended to the relayed FormData by the stream variant
(src/fe/src/lib/api-middleware/withMultiplePathForm.ts): a field, or a
file part whose content is a read stream of the temp path. -/
inductive EntryS where
  | fieldEntry (name value : String)
  | fileEntry (name filename contentType path : String)
deriving DecidableEq

/-- An entry appended by the Blob variant (src/unnamed/part_002 region of
src/unnamed/part_001, lines 318-392): the file content is the byte buffer
read from the temp path. -/
inductive EntryB where
  | fieldEntry (name value : String)
  | fileEntry (name filename contentType : String) (bytes : List Nat)
deriving DecidableEq

/-- Sending a stream entry reads the temp file: `fs` maps a path to the
bytes stored there. -/
def materialize (fs : String → List Nat) : EntryS → EntryB
  | EntryS.fieldEntry n v => EntryB.fieldEntry n v
  | EntryS.fileEntry n fn ct p => EntryB.fileEntry n fn ct (fs p)

/-- The fields loop of the stream variant (withMultiplePathForm.ts lines
62-73): arrays expand in order, undefined values are skipped. -/
def fieldEntriesS : List (String × FieldVal) → List EntryS
  | [] => []
  | (key, FieldVal.arr vs) :: rest => vs.map (fun v => EntryS.fieldEntry key v) ++ fieldEntriesS rest
  | (key, FieldVal.single v) :: rest => EntryS.fieldEntry key v :: fieldEntriesS rest
  | (_key, FieldVal.undef) :: rest => fieldEntriesS rest

/-- The identical fields loop of the Blob variant (src/unnamed/part_001
lines 337-348). -/
def fieldEntriesB : List (String × FieldVal) → List EntryB
  | [] => []
  | (key, FieldVal.arr vs) :: rest => vs.map (fun v => EntryB.fieldEntry key v) ++ fieldEntriesB rest
  | (key, FieldVal.single v) :: rest => EntryB.fieldEntry key v :: fieldEntriesB rest
  | (_key, FieldVal.undef) :: rest => fieldEntriesB rest

/-- `Array.isArray(fileArray) ? fileArray : [fileArray]`. -/
def fileListOf : FilesVal → List (Option FPart)
  | FilesVal.arr l => l
  | FilesVal.single f => [f]

/-- The inner file loop of the stream variant (withMultiplePathForm.ts
lines 79-88): a part that is null or has no truthy filepath is skipped
(its index still advances); otherwise append with the JavaScript-falsy
defaults for filename and content type. -/
def appendFileListS (name : String) (i : Nat) : List (Option FPart) → List EntryS
  | [] => []
  | f? :: rest =>
    match f? with
    | none => appendFileListS name (i + 1) rest
    | some f =>
      match f.filepath with
      | none => appendFileListS name (i + 1) rest
      | some fp =>
        if fp == "" then appendFileListS name (i + 1) rest
        else
          EntryS.fileEntry name
              (orDefault f.originalFilename ("file-" ++ toString i))
              (orDefault f.mimetype "application/octet-stream") fp
            :: appendFileListS name (i + 1) rest

/-- The inner file loop of the Blob variant (src/unnamed/part_001 lines
351-371): same control flow, content read eagerly with readFileSync. -/
def appendFileListB (fs : String → List Nat) (name : String) (i : Nat) :
    List (Option FPart) → List EntryB
  | [] => []
  | f? :: rest =>
    match f? with
    | none => appendFileListB fs name (i + 1) rest
    | some f =>
      match f.filepath with
      | none => appendFileListB fs name (i + 1) rest
      | some fp =>
        if fp == "" then appendFileListB fs name (i + 1) rest
        else
          EntryB.fileEntry name
              (orDefault f.originalFilename ("file-" ++ toString i))
              (orDefault f.mimetype "application/octet-stream") (fs fp)
            :: appendFileListB fs name (i + 1) rest

def fileEntriesS : List (String × FilesVal) → List EntryS
  | [] => []
  | (name, fv) :: rest => appendFileListS name 0 (fileListOf fv) ++ fileEntriesS rest

def fileEntriesB (fs : String → List Nat) : List (String × FilesVal) → List EntryB
  | [] => []
  | (name, fv) :: rest => appendFileListB fs name 0 (fileListOf fv) ++ fileEntriesB fs rest

/-- The whole FormData built by the stream variant: all fields first, then
all files, in entry order. -/
def assembleS (fields : List (String × FieldVal)) (files : List (String × FilesVal)) :
    List EntryS :=
  fieldEntriesS fields ++ fileEntriesS files

/-- The whole FormData built by the Blob variant. -/
def assembleB (fs : String → List Nat) (fields : List (String × FieldVal))
    (files : List (String × FilesVal)) : List EntryB :=
  fieldEntriesB fields ++ fileEntriesB fs files

/-- `Object.values(files).flat().filter(Boolean)` (withMultiplePathForm.ts
line 93): the parsed file parts, nulls dropped. -/
def parsedFilesOf (files : List (String × FilesVal)) : List FPart :=
  ((files.map (fun p => fileListOf p.2)).flatten).filterMap id

/-- `cleanupTempFiles` (withMultiplePathForm.ts lines 29-41): the temp
paths whose unlink is attempted — every part with a truthy filepath;
unlink failures are swallowed. -/
def cleanupTempFiles (tempFiles : List FPart) : List String :=
  tempFiles.filterMap (fun f =>
    match f.filepath with
    | some fp => if fp == "" then none else some fp
    | none => none)

/-- Outcome of `await next()` as the middleware observes it. -/
inductive NextOutcome where
  | ok
  | threw (msg : String)
deriving DecidableEq

/-- Observable outcome of one run of `createFormDataMiddleware`
(withMultiplePathForm.ts lines 43-109): the 500 response the middleware
itself writes from its catch block (none when `next` handled the
response), and the list of temp paths whose removal it attempted.
The source calls `cleanupTempFiles` only after `await next()` returns
normally; the catch block performs no cleanup. -/
structure MiddlewareOutcome where
  ownResponse : Option (Nat × String)
  unlinkAttempted : List String
deriving DecidableEq

def createFormDataMiddleware
    (parseResult : Except String (List (String × FieldVal) × List (String × FilesVal)))
    (nextOutcome : NextOutcome) : MiddlewareOutcome :=
  match parseResult with
  | Except.error _ =>
    { ownResponse := some (500, "Failed to process form data"), unlinkAttempted := [] }
  | Except.ok (_, files) =>
    match nextOutcome with
    | NextOutcome.ok =>
      { ownResponse := none
        unlinkAttempted := cleanupTempFiles (parsedFilesOf files) }
    | NextOutcome.threw _ =>
      { ownResponse := some (500, "Failed to process form data"), unlinkAttempted := [] }

/-! Concrete sample inputs used by witnesses and counterexamples. -/

/-- A genuine PNG: declared image/png, content is exactly the 8 magic
bytes. -/
def goodPngFile : MFile :=
  { originalname := "a.png", mimetype := "image/png", filename := "u1-1.png"
    path := "/tmp/a", size := 8, readResult := some PNG_SIGNATURE, unlinkOk := true }

/-- Declared image/png, readable content of 8 zero bytes, temp file
removable. -/
def badPngFile : MFile :=
  { originalname := "b.png", mimetype := "image/png", filename := "u2-2.png"
    path := "/tmp/b", size := 8
    readResult := some [0, 0, 0, 0, 0, 0, 0, 0], unlinkOk := true }

/-- Declared image/png, readable content of 8 zero bytes, and the unlink
of its temp path fails. -/
def badPngStuckFile : MFile :=
  { originalname := "evil.png", mimetype := "image/png", filename := "u3-3.png"
    path := "/tmp/evil", size := 8
    readResult := some [0, 0, 0, 0, 0, 0, 0, 0], unlinkOk := false }

/-- A file whose readFileSync throws. -/
def unreadableFile : MFile :=
  { originalname := "x.png", mimetype := "image/jpeg", filename := "u4-4.jpg"
    path := "/tmp/x", size := 3, readResult := none, unlinkOk := false }

/-- A parsed file part captured at /tmp/upload-1. -/
def sampleFPart : FPart :=
  { originalFilename := some "a.png", mimetype := some "image/png"
    filepath := some "/tmp/upload-1" }

/-! Helper lemmas about the validation loop. -/

theorem isPngByBytes_iff (b : List Nat) :
    isPngByBytes b = true ↔ 8 ≤ b.length ∧ b.take 8 = PNG_SIGNATURE := by
  have hlen : PNG_SIGNATURE.length = 8 := rfl
  unfold isPngByBytes
  rw [hlen]
  split_ifs with h
  · simp only [Bool.false_eq_true, false_iff]
    intro hc
    omega
  · rw [beq_iff_eq]
    constructor
    · intro he
      exact ⟨by omega, he⟩
    · intro hc
      exact hc.2

theorem catchBranch_validFiles (st : LoopState) (f : MFile) :
    (catchBranch st f).validFiles = st.validFiles := rfl

theorem step_validFiles (st : LoopState) (f : MFile) :
    (validateStep st f).validFiles =
      if isAccepted f then st.validFiles ++ [f] else st.validFiles := by
  unfold validateStep isAccepted
  cases hr : f.readResult with
  | none => simp [catchBranch_validFiles]
  | some buffer =>
    by_cases hm : (f.mimetype == "image/png") = true
    · by_cases hp : isPngByBytes buffer = true
      · simp [hm, hp]
      · simp only [hm, hp, Bool.not_true, Bool.false_or]
        simp only [if_true, Bool.false_eq_true, if_false]
        by_cases hu : f.unlinkOk = true
        · simp [hu]
        · simp [hu, catchBranch_validFiles]
    · simp only [Bool.not_eq_true] at hm
      simp [hm]

theorem step_verdicts (st : LoopState) (f : MFile) :
    (validateStep st f).validFiles.length + (validateStep st f).invalidFiles.length =
      st.validFiles.length + st.invalidFiles.length + verdictCount f := by
  unfold validateStep verdictCount
  cases hr : f.readResult with
  | none => simp [catchBranch]; omega
  | some buffer =>
    by_cases hm : (f.mimetype == "image/png") = true
    · by_cases hp : isPngByBytes buffer = true
      · simp [hm, hp]; omega
      · by_cases hu : f.unlinkOk = true
        · simp [hm, hp, hu]; omega
        · simp [hm, hp, hu, catchBranch]; omega
    · simp [hm]; omega

theorem validateFiles_validFiles (files : List MFile) (st : LoopState) :
    (validateFiles st files).validFiles =
      st.validFiles ++ files.filter (fun f => isAccepted f) := by
  induction files generalizing st with
  | nil => simp [validateFiles]
  | cons f rest ih =>
    rw [validateFiles, ih, List.filter_cons]
    by_cases h : isAccepted f = true
    · simp [h, step_validFiles, List.append_assoc]
    · simp only [Bool.not_eq_true] at h
      simp [h, step_validFiles]

theorem validateFiles_verdicts (files : List MFile) (st : LoopState) :
    (validateFiles st files).validFiles.length + (validateFiles st files).invalidFiles.length =
      st.validFiles.length + st.invalidFiles.length + (files.map verdictCount).sum := by
  induction files generalizing st with
  | nil => simp [validateFiles]
  | cons f rest ih =>
    rw [validateFiles, ih]
    have := step_verdicts st f
    simp only [List.map_cons, List.sum_cons]
    omega

theorem string_data_append (s t : String) : (s ++ t).data = s.data ++ t.data := by
  cases s
  cases t
  rfl

/-! Claim theorems. -/

/-- Claim C1: a file declared exactly image/png with readable content is
accepted by the signature validator iff its content is at least 8 bytes
long and its first 8 bytes equal 89 50 4E 47 0D 0A 1A 0A; otherwise it is
rejected with the verdict reason Invalid PNG signature and its backend
temp file is deleted (the unlink is attempted unconditionally and removes
the file whenever the unlink succeeds).  A file declared any other
image/* type is accepted unconditionally, regardless of its content
bytes. -/
theorem png_signature_validator_correct (st : LoopState) (f : MFile) (buffer : List Nat)
    (hread : f.readResult = some buffer) :
    (f.mimetype = "image/png" →
      (((validateStep st f).validFiles = st.validFiles ++ [f]) ↔
        (8 ≤ buffer.length ∧ buffer.take 8 = PNG_SIGNATURE))
      ∧ (¬ (8 ≤ buffer.length ∧ buffer.take 8 = PNG_SIGNATURE) →
          (validateStep st f).validFiles = st.validFiles
          ∧ (f.originalname ++ " - Invalid PNG signature") ∈ (validateStep st f).invalidFiles
          ∧ f.path ∈ (validateStep st f).unlinkAttempts
          ∧ (f.unlinkOk = true →
              (validateStep st f).invalidFiles =
                st.invalidFiles ++ [f.originalname ++ " - Invalid PNG signature"]
              ∧ (validateStep st f).removed = st.removed ++ [f.path])))
    ∧ (f.mimetype ≠ "image/png" → jsStartsWith f.mimetype "image/" = true →
        validateStep st f = { st with validFiles := st.validFiles ++ [f] }) := by
  constructor
  · intro hm
    have hmb : (f.mimetype == "image/png") = true := by simp [hm]
    have hacc : isAccepted f = isPngByBytes buffer := by
      simp [isAccepted, hread, hmb]
    constructor
    · rw [step_validFiles, hacc]
      by_cases hp : isPngByBytes buffer = true
      · rw [hp]
        simp only [if_true]
        constructor
        · intro _
          exact (isPngByBytes_iff buffer).mp hp
        · intro _
          trivial
      · have hp' : isPngByBytes buffer = false := by simpa using hp
        rw [hp']
        simp only [Bool.false_eq_true, if_false]
        constructor
        · intro hcontra
          exfalso
          have := congrArg List.length hcontra
          simp at this
        · intro hc
          exact absurd ((isPngByBytes_iff buffer).mpr hc) hp
    · intro hno
      have hp : isPngByBytes buffer = false := by
        by_contra hc
        rw [Bool.not_eq_false] at hc
        exact hno ((isPngByBytes_iff buffer).mp hc)
      by_cases hu : f.unlinkOk = true
      · refine ⟨?_, ?_, ?_, ?_⟩ <;>
          simp [validateStep, hread, hmb, hp, hu, catchBranch]
      · have hu' : f.unlinkOk = false := by simpa using hu
        refine ⟨?_, ?_, ?_, ?_⟩
        · simp [validateStep, hread, hmb, hp, hu', catchBranch]
        · simp [validateStep, hread, hmb, hp, hu', catchBranch]
        · simp [validateStep, hread, hmb, hp, hu', catchBranch]
        · intro hcontra
          rw [hu'] at hcontra
          exact absurd hcontra (by simp)
  · intro hm himg
    have hmb : (f.mimetype == "image/png") = false := by simp [hm]
    simp [validateStep, hread, hmb]

theorem png_signature_validator_correct_witness :
    (validateStep emptyState goodPngFile).validFiles = [goodPngFile] := by
  have h := png_signature_validator_correct emptyState goodPngFile PNG_SIGNATURE rfl
  have h2 := ((h.1 rfl).1).mpr ⟨by decide, by decide⟩
  simpa [emptyState] using h2

/-- Claim C2 (code bug): the middleware calls `cleanupTempFiles` only
after `await next()` returns normally; its catch block answers 500 and
performs no cleanup, so when the relay call throws, the temp files parsed
from the request remain on disk.  Evaluated at a request that parsed one
file part at /tmp/upload-1 and a relay call that throws: no unlink is
attempted, although the very same parsed state has one temp path which
the success path does remove. -/
theorem cleanup_skipped_when_relay_throws :
    (createFormDataMiddleware
        (Except.ok ([("title", FieldVal.single "upload image")],
          [("images", FilesVal.arr [some sampleFPart])]))
        (NextOutcome.threw "Backend responded with status: 500")).unlinkAttempted = []
    ∧ cleanupTempFiles (parsedFilesOf [("images", FilesVal.arr [some sampleFPart])]) =
        ["/tmp/upload-1"]
    ∧ (createFormDataMiddleware
        (Except.ok ([("title", FieldVal.single "upload image")],
          [("images", FilesVal.arr [some sampleFPart])]))
        NextOutcome.ok).unlinkAttempted = ["/tmp/upload-1"] := by
  exact ⟨rfl, rfl, rfl⟩

/-- Claim C3: with at least one received file, if zero files pass
validation the response is status 400, success false, no files field, and
the error string joins every rejection reason with a comma delimiter; if
at least one passes, the response is status 200, success true, and the
files field holds exactly the accepted files — the received files
satisfying the acceptance predicate — in receipt order. -/
theorem upload_response_partition_correct (proto host : String) (idOf : Nat → String)
    (files : List MFile) (hne : files ≠ []) :
    ((validateFiles emptyState files).validFiles = [] →
      (handleUpload proto host idOf files).status = 400
      ∧ (handleUpload proto host idOf files).success = false
      ∧ (handleUpload proto host idOf files).files = none
      ∧ (handleUpload proto host idOf files).error =
          some (String.intercalate ", " (validateFiles emptyState files).invalidFiles))
    ∧ ((validateFiles emptyState files).validFiles ≠ [] →
      (handleUpload proto host idOf files).status = 200
      ∧ (handleUpload proto host idOf files).success = true
      ∧ (handleUpload proto host idOf files).files =
          some (((files.filter (fun f => isAccepted f)).enum).map
            (fun p => toFileData proto host idOf p.1 p.2))
      ∧ (handleUpload proto host idOf files).error = none) := by
  have hlen : (files.length == 0) = false := by
    cases files with
    | nil => exact absurd rfl hne
    | cons f rest => rfl
  have hfilter : (validateFiles emptyState files).validFiles =
      files.filter (fun f => isAccepted f) := by
    simpa [emptyState] using validateFiles_validFiles files emptyState
  constructor
  · intro hempty
    have hvlen : ((validateFiles emptyState files).validFiles.length == 0) = true := by
      simp [hempty]
    refine ⟨?_, ?_, ?_, ?_⟩ <;> simp [handleUpload, hlen, hvlen]
  · intro hvne
    have hvlen : ((validateFiles emptyState files).validFiles.length == 0) = false := by
      simp only [beq_eq_false_iff_ne]
      intro hc
      exact hvne (List.length_eq_zero.mp hc)
    have hfiles : (handleUpload proto host idOf files).files =
        some (((validateFiles emptyState files).validFiles.enum).map
          (fun p => toFileData proto host idOf p.1 p.2)) := by
      simp [handleUpload, hlen, hvlen, hvne]
    refine ⟨?_, ?_, ?_, ?_⟩
    · simp [handleUpload, hlen, hvlen, hvne]
    · simp [handleUpload, hlen, hvlen, hvne]
    · rw [hfiles, hfilter]
    · simp [handleUpload, hlen, hvlen, hvne]

theorem upload_response_partition_correct_witness :
    (handleUpload "http" "localhost:8080" (fun i => toString i)
        [goodPngFile, badPngFile]).status = 200
    ∧ (handleUpload "http" "localhost:8080" (fun i => toString i)
        [goodPngFile, badPngFile]).success = true := by
  have h := upload_response_partition_correct "http" "localhost:8080" (fun i => toString i)
      [goodPngFile, badPngFile] (List.cons_ne_nil _ _)
  have hvne : (validateFiles emptyState [goodPngFile, badPngFile]).validFiles ≠ [] := by
    decide
  exact ⟨(h.2 hvne).1, (h.2 hvne).2.1⟩

/-- Claim C4 counterexample: the claim says a non-image declared type (an
admission-cap violation) yields a 400 response, but the error handler of
the backend returns 400 only for a MulterError of code LIMIT_FILE_SIZE;
the plain Error that fileFilter emits for mimetype text/plain — and the
MulterError for exceeding the 10-file count cap — both surface as 500. -/
theorem admission_cap_status_counterexample :
    fileFilter "text/plain" = some fileFilterError
    ∧ (errorHandler fileFilterError).status = 500
    ∧ ¬ (errorHandler fileFilterError).status = 400
    ∧ (errorHandler limitFileCountError).status = 500 := by
  refine ⟨by decide, rfl, by decide, rfl⟩

/-- Claim C4 (amended): every admission-cap violation still fails the
entire request with a failure response (no partial success), but only the
per-file size cap surfaces as 400 with the cap-specific message
File too large. Maximum size is 5MB.; exceeding the file count cap and a
non-image declared type surface as 500 carrying the error message. -/
theorem admission_cap_status_amended :
    (errorHandler limitFileSizeError).status = 400
    ∧ (errorHandler limitFileSizeError).message = "File too large. Maximum size is 5MB."
    ∧ (errorHandler limitFileSizeError).success = false
    ∧ (errorHandler limitFileCountError).status = 500
    ∧ (errorHandler limitFileCountError).success = false
    ∧ (∀ mt : String, jsStartsWith mt "image/" = false →
        fileFilter mt = some fileFilterError
        ∧ (errorHandler fileFilterError).status = 500
        ∧ (errorHandler fileFilterError).success = false
        ∧ (errorHandler fileFilterError).message = "Only image files are allowed!") := by
  refine ⟨rfl, rfl, rfl, rfl, rfl, ?_⟩
  intro mt hmt
  refine ⟨?_, rfl, rfl, rfl⟩
  simp [fileFilter, hmt]

theorem admission_cap_status_amended_witness :
    fileFilter "text/html" = some fileFilterError
    ∧ (errorHandler fileFilterError).status = 500 := by
  have h := admission_cap_status_amended.2.2.2.2.2 "text/html" (by decide)
  exact ⟨h.1, h.2.1⟩

/-- Claim C5 counterexample: a single file declared image/png with
readable non-matching content whose temp-file unlink fails is pushed onto
invalidFiles twice (Invalid PNG signature, then Validation error from the
catch block the failed unlink falls into), so one received file produces
two verdicts. -/
theorem verdict_count_counterexample :
    (validateFiles emptyState [badPngStuckFile]).validFiles.length
      + (validateFiles emptyState [badPngStuckFile]).invalidFiles.length = 2
    ∧ [badPngStuckFile].length = 1 := by
  exact ⟨rfl, rfl⟩

/-- Claim C5 (amended): every received file produces at least one verdict,
and exactly one — so that total verdicts equal total received files —
provided no file is a declared image/png with readable non-matching
content whose temp-file deletion fails (such a file is rejected twice). -/
theorem verdict_count_amended (files : List MFile)
    (h : ∀ f ∈ files, doubleVerdict f = false) :
    (validateFiles emptyState files).validFiles.length
      + (validateFiles emptyState files).invalidFiles.length = files.length := by
  have hsum := validateFiles_verdicts files emptyState
  have hone : ∀ f ∈ files, verdictCount f = 1 := by
    intro f hf
    have hd := h f hf
    unfold doubleVerdict at hd
    unfold verdictCount
    cases hr : f.readResult with
    | none => rfl
    | some buffer =>
      rw [hr] at hd
      by_cases hm : (f.mimetype == "image/png") = true
      · by_cases hp : isPngByBytes buffer = true
        · simp [hm, hp]
        · have hp' : isPngByBytes buffer = false := by simpa using hp
          simp only [hm, hp', Bool.not_false, Bool.true_and] at hd
          have hu : f.unlinkOk = true := by
            by_contra hc
            have : f.unlinkOk = false := by simpa using hc
            rw [this] at hd
            simp at hd
          simp [hm, hp', hu]
      · simp [hm]
  have haux : ∀ l : List MFile, (∀ f ∈ l, verdictCount f = 1) →
      (l.map verdictCount).sum = l.length := by
    intro l
    induction l with
    | nil => intro _; rfl
    | cons f rest ih =>
      intro hl
      simp only [List.map_cons, List.sum_cons, List.length_cons]
      rw [hl f (List.mem_cons_self f rest), ih (fun g hg => hl g (List.mem_cons_of_mem f hg))]
      omega
  have hlen := haux files hone
  simp only [emptyState, List.length_nil] at hsum ⊢
  omega

theorem verdict_count_amended_witness :
    (validateFiles emptyState [goodPngFile, badPngFile]).validFiles.length
      + (validateFiles emptyState [goodPngFile, badPngFile]).invalidFiles.length = 2 := by
  have h := verdict_count_amended [goodPngFile, badPngFile] (by decide)
  simpa using h

/-- Claim C6: a file whose content read throws is rejected with the
verdict reason Validation error, the removal of its temp file is
attempted (recorded among unlinkAttempts whether or not the unlink
succeeds — a failure only loses the removal, nothing else), and the loop
continues with the remaining files: the step function is total and the
fold proceeds on the tail. -/
theorem read_error_rejection_correct (st : LoopState) (f : MFile) (rest : List MFile)
    (hread : f.readResult = none) :
    validateStep st f =
      { st with
        invalidFiles := st.invalidFiles ++ [f.originalname ++ " - Validation error"]
        unlinkAttempts := st.unlinkAttempts ++ [f.path]
        removed := if f.unlinkOk then st.removed ++ [f.path] else st.removed }
    ∧ validateFiles st (f :: rest) = validateFiles (validateStep st f) rest := by
  constructor
  · simp [validateStep, hread, catchBranch]
  · rfl

theorem read_error_rejection_correct_witness :
    (validateStep emptyState unreadableFile).invalidFiles = ["x.png - Validation error"]
    ∧ validateFiles emptyState [unreadableFile] =
        validateFiles (validateStep emptyState unreadableFile) [] := by
  have h := read_error_rejection_correct emptyState unreadableFile [] rfl
  constructor
  · rw [h.1]
    decide
  · exact h.2

/-- Claim C7: on a POST relay request, a backend response with a 2xx
status is passed through with status 200 and the backend body unmodified;
a non-2xx backend status or a network failure of the outbound call is
answered with status 500 and a generic failure body. -/
theorem relay_status_translation_correct (r : BackendResponse) (msg : String) :
    (200 ≤ r.status ∧ r.status < 300 →
      relayHandler "POST" (FetchOutcome.respond r) = (200, EdgeBody.relayed r.body))
    ∧ (¬ (200 ≤ r.status ∧ r.status < 300) →
      relayHandler "POST" (FetchOutcome.respond r) =
        (500, EdgeBody.failure "Internal server error"
          ("Backend responded with status: " ++ toString r.status)))
    ∧ relayHandler "POST" (FetchOutcome.networkFailure msg) =
        (500, EdgeBody.failure "Internal server error" msg) := by
  refine ⟨?_, ?_, rfl⟩
  · intro h
    simp [relayHandler, h]
  · intro h
    simp [relayHandler, h]

theorem relay_status_translation_correct_witness :
    relayHandler "POST" (FetchOutcome.respond ⟨200, "ok-body"⟩) =
      (200, EdgeBody.relayed "ok-body")
    ∧ relayHandler "POST" (FetchOutcome.respond ⟨500, "err-body"⟩) =
        (500, EdgeBody.failure "Internal server error"
          ("Backend responded with status: " ++ toString 500)) := by
  exact ⟨(relay_status_translation_correct ⟨200, "ok-body"⟩ "m").1 (by decide),
    (relay_status_translation_correct ⟨500, "err-body"⟩ "m").2.1 (by decide)⟩

/-- Claim C8: two stored filenames built as uuid ++ dash ++ timestamp ++
extension never collide when the two uuid tokens are distinct (uuidv4
tokens all have the same string length, here taken as a hypothesis). -/
theorem stored_filename_no_collision (u1 u2 t1 t2 n1 n2 : String)
    (hlen : u1.length = u2.length) (hne : u1 ≠ u2) :
    generatedFilename u1 t1 n1 ≠ generatedFilename u2 t2 n2 := by
  intro h
  apply hne
  have hdata := congrArg String.data h
  simp only [generatedFilename, string_data_append, List.append_assoc] at hdata
  have hl : u1.data.length = u2.data.length := hlen
  have hu := (List.append_inj hdata hl).1
  exact congrArg String.mk hu

theorem stored_filename_no_collision_witness :
    generatedFilename "aaaa" "1" "x.png" ≠ generatedFilename "bbbb" "2" "x.png" :=
  stored_filename_no_collision "aaaa" "bbbb" "1" "2" "x.png" "x.png" rfl (by decide)

/-- Claim C9: the relay assembler's file loop substitutes
file- followed by the part's index in its field's list when the original
client filename is absent, substitutes application/octet-stream when the
declared media type is absent, and silently skips — appending nothing,
while the index still advances — a part that is null or has no truthy
temp filepath. -/
theorem relay_append_defaults_correct (name : String) (i : Nat) (f : FPart) (fp : String)
    (rest : List (Option FPart)) :
    (f.filepath = some fp → fp ≠ "" → f.originalFilename = none →
      appendFileListS name i (some f :: rest) =
        EntryS.fileEntry name ("file-" ++ toString i)
            (orDefault f.mimetype "application/octet-stream") fp
          :: appendFileListS name (i + 1) rest)
    ∧ (f.filepath = some fp → fp ≠ "" → f.mimetype = none →
      appendFileListS name i (some f :: rest) =
        EntryS.fileEntry name (orDefault f.originalFilename ("file-" ++ toString i))
            "application/octet-stream" fp
          :: appendFileListS name (i + 1) rest)
    ∧ (f.filepath = none →
      appendFileListS name i (some f :: rest) = appendFileListS name (i + 1) rest)
    ∧ appendFileListS name i (none :: rest) = appendFileListS name (i + 1) rest := by
  refine ⟨?_, ?_, ?_, rfl⟩
  · intro hfp hne hof
    have he : (fp == "") = false := by simpa using hne
    simp [appendFileListS, hfp, he, orDefault, hof]
  · intro hfp hne hmt
    have he : (fp == "") = false := by simpa using hne
    simp [appendFileListS, hfp, he, orDefault, hmt]
  · intro hfp
    simp [appendFileListS, hfp]

theorem relay_append_defaults_correct_witness :
    appendFileListS "images" 0 [some ⟨none, none, some "/tmp/x"⟩] =
      [EntryS.fileEntry "images" "file-0" "application/octet-stream" "/tmp/x"] := by
  have h := (relay_append_defaults_correct "images" 0 ⟨none, none, some "/tmp/x"⟩
      "/tmp/x" []).1 rfl (by decide) rfl
  rw [h]
  decide

theorem materialize_fieldEntries (fs : String → List Nat) (fields : List (String × FieldVal)) :
    (fieldEntriesS fields).map (materialize fs) = fieldEntriesB fields := by
  induction fields with
  | nil => rfl
  | cons p rest ih =>
    obtain ⟨key, val⟩ := p
    cases val with
    | arr vs =>
      simp [fieldEntriesS, fieldEntriesB, ih, List.map_map, Function.comp, materialize]
    | single v => simp [fieldEntriesS, fieldEntriesB, ih, materialize]
    | undef => simp [fieldEntriesS, fieldEntriesB, ih]

theorem materialize_appendFileList (fs : String → List Nat) (name : String)
    (l : List (Option FPart)) : ∀ i,
    (appendFileListS name i l).map (materialize fs) = appendFileListB fs name i l := by
  induction l with
  | nil => intro i; rfl
  | cons f? rest ih =>
    intro i
    cases f? with
    | none => simp [appendFileListS, appendFileListB, ih]
    | some f =>
      cases hfp : f.filepath with
      | none => simp [appendFileListS, appendFileListB, hfp, ih]
      | some fp =>
        by_cases he : (fp == "") = true
        · simp [appendFileListS, appendFileListB, hfp, he, ih]
        · have he' : (fp == "") = false := by simpa using he
          simp [appendFileListS, appendFileListB, hfp, he', ih, materialize]

theorem materialize_fileEntries (fs : String → List Nat) (files : List (String × FilesVal)) :
    (fileEntriesS files).map (materialize fs) = fileEntriesB fs files := by
  induction files with
  | nil => rfl
  | cons p rest ih =>
    obtain ⟨name, fv⟩ := p
    simp [fileEntriesS, fileEntriesB, List.map_append, ih, materialize_appendFileList]

/-- Claim C10: the stream-based relay assembler and the buffer/Blob-based
one produce equivalent relay payloads: materializing the stream entries
(reading each temp path through the same file system) yields exactly the
Blob variant's entries — same field pairs, same file parts with the same
filenames, content types and byte content, in the same order. -/
theorem relay_assembler_equivalent (fs : String → List Nat)
    (fields : List (String × FieldVal)) (files : List (String × FilesVal)) :
    (assembleS fields files).map (materialize fs) = assembleB fs fields files := by
  simp [assembleS, assembleB, List.map_append, materialize_fieldEntries,
    materialize_fileEntries]

end NextPageBuilder
